import Mathlib

/-!
Verification development for the data-extraction-api repository.

The model embeds `extraction/models.py` and `extraction/services.py`:
jobs and extracted records live in an in-memory store, timestamps are
drawn from a monotone clock counter (each call of `timezone.now()`
returns the current counter and advances it), and the randomness of the
mock client (`random.randint(5, 25)`) is supplied as an explicit seed
argument, mapped into the interval the source draws from.
-/

namespace DataExtraction

/-- ExtractionJob from models.py. The uuid primary key is modelled as a
natural number handed out sequentially by the store; `created_at` and
`updated_at` are framework bookkeeping and carry no behaviour, so they
are omitted. `record_count` is an IntegerField, hence Int. -/
structure ExtractionJob where
  job_id : Nat
  status : String
  api_token : String
  error_message : String
  record_count : Int
  start_time : Option Nat
  end_time : Option Nat
deriving DecidableEq, Repr

/-- ExtractedRecord from models.py: owned by one job via the foreign key
`job`; `additional_data` is a JSON object of string keys to string
values in every record the mock client produces. -/
structure ExtractedRecord where
  job_id : Nat
  id_from_service : String
  email : String
  first_name : String
  last_name : String
  additional_data : List (String × String)
deriving DecidableEq, Repr

/-- one raw item of the list returned by MockThirdPartyAPI.extract_data
(a Python dict with these exact keys). -/
structure RawRecord where
  id_from_service : String
  email : String
  first_name : String
  last_name : String
  additional_data : List (String × String)
deriving DecidableEq, Repr

/-- the persistent state: the job table, the record table, the next
fresh job id, and the clock counter read by `timezone.now()`. -/
structure Store where
  jobs : List ExtractionJob
  records : List ExtractedRecord
  nextId : Nat
  clock : Nat
deriving DecidableEq, Repr

def emptyStore : Store := { jobs := [], records := [], nextId := 0, clock := 0 }

/-- str.startswith(p): the characters of p are an initial segment of
the characters of s. -/
def strStartsWith (s p : String) : Bool :=
  s.data.take p.data.length == p.data

/-- MockThirdPartyAPI.validate_token:
`bool(self.api_token and len(self.api_token) > 10 and not
self.api_token.startswith("invalid"))`. The truthiness test on the
string is emptiness. -/
def validate_token (api_token : String) : Bool :=
  !(api_token == "") && decide (api_token.length > 10)
    && !(strStartsWith api_token "invalid")

/-- random.randint lo hi draws uniformly from [lo, hi], both ends
included; the draw is determined here by an explicit seed. -/
def randint (lo hi seed : Nat) : Nat :=
  lo + seed % (hi + 1 - lo)

/-- the `:04d` format directive: decimal, left-padded with zeros to
width 4. -/
def pad4 (n : Nat) : String :=
  let s := toString n
  if s.length < 4 then String.mk (List.replicate (4 - s.length) '0') ++ s else s

/-- one element of `mock_data` in MockThirdPartyAPI.extract_data, for
loop index i. -/
def mockRecord (i : Nat) : RawRecord :=
  { id_from_service := "user_" ++ toString i
    email := "user" ++ toString i ++ "@example.com"
    first_name := "FirstName" ++ toString i
    last_name := "LastName" ++ toString i
    additional_data :=
      [("phone", "+1-555-" ++ pad4 (1000 + i)),
       ("company", "Company " ++ toString i),
       ("created_date", "2023-01-01")] }

/-- the `mock_data` list comprehension of extract_data: one record for
each i in range(1, randint(5, 25)), i.e. indices 1 to n - 1 where n is
the draw. -/
def mockData (seed : Nat) : List RawRecord :=
  (List.range' 1 (randint 5 25 seed - 1)).map mockRecord

/-- MockThirdPartyAPI.extract_data: raises ValueError (here: returns the
error message) when the token fails validation, otherwise produces the
`mock_data` list. The time.sleep delay has no observable effect on the
store and is not modelled. -/
def extract_data (api_token : String) (seed : Nat) : Except String (List RawRecord) :=
  if !(validate_token api_token) then Except.error "Invalid API token"
  else Except.ok (mockData seed)

/-- ExtractionJob.objects.get(job_id=job_id): the row with that primary
key, none when absent. -/
def getJob (s : Store) (job_id : Nat) : Option ExtractionJob :=
  s.jobs.find? (fun j => j.job_id == job_id)

/-- job.save(): writes the row with the matching primary key back. -/
def saveJob (jobs : List ExtractionJob) (u : ExtractionJob) : List ExtractionJob :=
  jobs.map (fun j => if j.job_id == u.job_id then u else j)

/-- ExtractionJob.can_be_cancelled: status is pending or in_progress. -/
def can_be_cancelled (j : ExtractionJob) : Bool :=
  j.status == "pending" || j.status == "in_progress"

/-- a status from which no further automatic transition occurs. -/
def isTerminalStatus (st : String) : Bool :=
  st == "completed" || st == "failed" || st == "cancelled"

/-- the ExtractedRecord the service builds from one extracted item
(the dict lookups with defaults always find their keys here). -/
def toRecord (job_id : Nat) (d : RawRecord) : ExtractedRecord :=
  { job_id := job_id
    id_from_service := d.id_from_service
    email := d.email
    first_name := d.first_name
    last_name := d.last_name
    additional_data := d.additional_data }

/-- a duplicate of the unique_together key (job, id_from_service)
inside one batch of rows. -/
def dupWithin : List ExtractedRecord → Bool
  | [] => false
  | r :: rest =>
      rest.any (fun e => e.job_id == r.job_id && e.id_from_service == r.id_from_service)
        || dupWithin rest

/-- a duplicate within a list of service identifiers. -/
def dupIds : List String → Bool
  | [] => false
  | x :: rest => rest.any (fun y => y == x) || dupIds rest

/-- ExtractedRecord.objects.bulk_create raises IntegrityError exactly
when an inserted row collides with an existing row, or with another row
of the same batch, on the unique_together key (job, id_from_service)
declared in ExtractedRecord.Meta. -/
def bulkCreateFails (newRecs existing : List ExtractedRecord) : Bool :=
  newRecs.any (fun r => existing.any
      (fun e => e.job_id == r.job_id && e.id_from_service == r.id_from_service))
    || dupWithin newRecs

/-- the backend text of the IntegrityError raised on a unique_together
collision; the service only ever wraps it into a generic message. -/
def integrityErrorMessage : String :=
  "UNIQUE constraint failed: extraction_extractedrecord.job_id, extraction_extractedrecord.id_from_service"

/-- the first half of ExtractionService._process_extraction: set status
to in_progress, record start_time as now, save. Returns the saved row
and the store after the save. -/
def process_mark_in_progress (s : Store) (job : ExtractionJob) : ExtractionJob × Store :=
  let job1 := { job with status := "in_progress", start_time := some s.clock }
  (job1, { s with jobs := saveJob s.jobs job1, clock := s.clock + 1 })

/-- the except branches of _process_extraction: mark the fetched job
failed with the given message, set end_time to now, save. -/
def finishFailed (s1 : Store) (job1 : ExtractionJob) (msg : String) : Store :=
  let job2 := { job1 with status := "failed", error_message := msg,
                          end_time := some s1.clock }
  { s1 with jobs := saveJob s1.jobs job2, clock := s1.clock + 1 }

/-- the success tail of _process_extraction: bulk-create the records,
then mark the job completed with end_time now and record_count the
number of rows created, save. -/
def finishCompleted (s1 : Store) (job1 : ExtractionJob)
    (newRecs : List ExtractedRecord) : Store :=
  let s2 := { s1 with records := s1.records ++ newRecs }
  let job2 := { job1 with status := "completed", end_time := some s2.clock,
                          record_count := (newRecs.length : Int) }
  { s2 with jobs := saveJob s2.jobs job2, clock := s2.clock + 1 }

/-- the body of the try block once the job was fetched. A ValueError
from extract_data lands in the first except branch with
error_message = str(e); an IntegrityError from bulk_create lands in the
generic except branch with the wrapped message. -/
def process_found (s : Store) (job : ExtractionJob) (seed : Nat) : Store :=
  let p := process_mark_in_progress s job
  match extract_data job.api_token seed with
  | Except.error msg => finishFailed p.2 p.1 msg
  | Except.ok data =>
      let newRecs := data.map (toRecord job.job_id)
      if bulkCreateFails newRecs p.2.records then
        finishFailed p.2 p.1 ("Unexpected error: " ++ integrityErrorMessage)
      else finishCompleted p.2 p.1 newRecs

/-- the exceptions that can escape _process_extraction. -/
inductive PyExn where
  | doesNotExist
  | nameError
deriving DecidableEq, Repr

/-- ExtractionService._process_extraction. When no job with the given
id exists, ExtractionJob.objects.get raises DoesNotExist; that is
caught by the generic `except Exception` handler, whose first statement
reads the local variable `job` that was never bound, so the call
actually terminates with an UnboundLocalError (a NameError), and no row
is touched. -/
def process_extraction (s : Store) (job_id seed : Nat) : Except PyExn Store :=
  match getJob s job_id with
  | none => Except.error PyExn.nameError
  | some job => Except.ok (process_found s job seed)

/-- ExtractionService.process_extraction_manually: true on normal
return, false when _process_extraction raised. -/
def process_extraction_manually (s : Store) (job_id seed : Nat) : Bool × Store :=
  match process_extraction s job_id seed with
  | Except.ok s2 => (true, s2)
  | Except.error _ => (false, s)

/-- ExtractionService.start_extraction: create a job in pending with
the given token; no processing is triggered. -/
def start_extraction (s : Store) (api_token : String) : ExtractionJob × Store :=
  let job : ExtractionJob :=
    { job_id := s.nextId, status := "pending", api_token := api_token,
      error_message := "", record_count := 0,
      start_time := none, end_time := none }
  (job, { s with jobs := s.jobs ++ [job], nextId := s.nextId + 1 })

/-- ExtractionService.cancel_job: false when the job is missing or not
cancellable; otherwise set status cancelled, end_time now, save, return
true. -/
def cancel_job (s : Store) (job_id : Nat) : Bool × Store :=
  match getJob s job_id with
  | none => (false, s)
  | some job =>
      if can_be_cancelled job then
        let job2 := { job with status := "cancelled", end_time := some s.clock }
        (true, { s with jobs := saveJob s.jobs job2, clock := s.clock + 1 })
      else (false, s)

/-- ExtractionJob.duration_seconds, with `now` the clock value at the
evaluating call. -/
def duration_seconds (now : Nat) (j : ExtractionJob) : Int :=
  match j.start_time, j.end_time with
  | some st, some en => (en : Int) - (st : Int)
  | some st, none => (now : Int) - (st : Int)
  | none, _ => 0

/-- the payload of ExtractionService.get_job_statistics. The average is
a float in the source; it is modelled as the exact rational the same
division defines. -/
structure JobStatistics where
  total_jobs : Nat
  completed_jobs : Nat
  failed_jobs : Nat
  pending_jobs : Nat
  in_progress_jobs : Nat
  cancelled_jobs : Nat
  average_duration_seconds : Rat
  total_records_extracted : Int
deriving DecidableEq, Repr

/-- ExtractionService.get_job_statistics. -/
def get_job_statistics (s : Store) : JobStatistics :=
  let durations := (s.jobs.filter (fun j =>
      j.status == "completed" && j.start_time.isSome && j.end_time.isSome)).map
    (duration_seconds s.clock)
  { total_jobs := s.jobs.length
    completed_jobs := (s.jobs.filter (fun j => j.status == "completed")).length
    failed_jobs := (s.jobs.filter (fun j => j.status == "failed")).length
    pending_jobs := (s.jobs.filter (fun j => j.status == "pending")).length
    in_progress_jobs := (s.jobs.filter (fun j => j.status == "in_progress")).length
    cancelled_jobs := (s.jobs.filter (fun j => j.status == "cancelled")).length
    average_duration_seconds :=
      if durations.isEmpty then 0
      else ((durations.foldl (fun a d => a + d) 0 : Int) : Rat) / (durations.length : Rat)
    total_records_extracted := s.jobs.foldl (fun a j => a + j.record_count) 0 }

/-- the rows of the record table owned by one job. -/
def recordsFor (s : Store) (job_id : Nat) : List ExtractedRecord :=
  s.records.filter (fun r => r.job_id == job_id)

/-- one invocation of a service operation, with the random draw of the
mock client supplied as a seed where processing needs it. -/
inductive Op where
  | start (api_token : String)
  | process (job_id seed : Nat)
  | cancel (job_id : Nat)
deriving DecidableEq, Repr

/-- the store after one operation; a raising process_extraction leaves
the store as it was. -/
def applyOp (s : Store) : Op → Store
  | Op.start t => (start_extraction s t).2
  | Op.process id seed =>
      match process_extraction s id seed with
      | Except.ok s2 => s2
      | Except.error _ => s
  | Op.cancel id => (cancel_job s id).2

def runOps (ops : List Op) : Store := ops.foldl applyOp emptyStore

/-- a store producible from the empty store by service operations. -/
def Reachable (s : Store) : Prop := ∃ ops, runOps ops = s

/-- the per-job invariant maintained by the service operations:
end_time is set exactly on terminal statuses; a job whose token fails
validation has never acquired records, so record_count is 0; a pending
job has no timestamps, no count and no records; processed jobs carry a
start_time; between operations every status is pending or terminal; all
stored timestamps predate the clock; the id was handed out by the
store. -/
def JobInv (s : Store) (j : ExtractionJob) : Prop :=
  j.end_time.isSome = isTerminalStatus j.status
  ∧ (validate_token j.api_token = false → j.record_count = 0)
  ∧ (j.status = "pending" →
      j.start_time = none ∧ j.record_count = 0 ∧ ∀ r ∈ s.records, r.job_id ≠ j.job_id)
  ∧ (j.status = "completed" ∨ j.status = "failed" → j.start_time.isSome = true)
  ∧ (j.status = "pending" ∨ isTerminalStatus j.status = true)
  ∧ (∀ t, j.start_time = some t → t < s.clock)
  ∧ (∀ t, j.end_time = some t → t < s.clock)
  ∧ j.job_id < s.nextId

/-- the store invariant: every job satisfies its invariant and every
record references an id the store has handed out. -/
def StoreInv (s : Store) : Prop :=
  (∀ j ∈ s.jobs, JobInv s j) ∧ ∀ r ∈ s.records, r.job_id < s.nextId

theorem getJob_mem {s : Store} {id : Nat} {j : ExtractionJob}
    (h : getJob s id = some j) : j ∈ s.jobs :=
  List.mem_of_find?_eq_some h

theorem getJob_id {s : Store} {id : Nat} {j : ExtractionJob}
    (h : getJob s id = some j) : j.job_id = id := by
  have := List.find?_some h
  simpa using this

theorem mem_saveJob {jobs : List ExtractionJob} {u x : ExtractionJob}
    (h : x ∈ saveJob jobs u) :
    x = u ∨ (x ∈ jobs ∧ x.job_id ≠ u.job_id) := by
  simp only [saveJob, List.mem_map] at h
  obtain ⟨a, ha, hax⟩ := h
  by_cases hc : a.job_id = u.job_id
  · left
    simpa [hc] using hax.symm
  · right
    have : x = a := by simpa [hc] using hax.symm
    exact ⟨this ▸ ha, by simpa [this] using hc⟩

theorem saveJob_saveJob (jobs : List ExtractionJob) (u v : ExtractionJob)
    (h : u.job_id = v.job_id) :
    saveJob (saveJob jobs u) v = saveJob jobs v := by
  simp only [saveJob, List.map_map]
  apply List.map_congr_left
  intro a _
  by_cases hc : a.job_id = u.job_id
  · simp [Function.comp, hc, h]
  · simp [Function.comp, hc, h ▸ hc]

theorem find?_saveJob (jobs : List ExtractionJob) (u : ExtractionJob) (id : Nat)
    (hid : u.job_id = id)
    (h : (jobs.find? (fun j => j.job_id == id)).isSome = true) :
    (saveJob jobs u).find? (fun j => j.job_id == id) = some u := by
  induction jobs with
  | nil => simp [List.find?] at h
  | cons a l ih =>
      by_cases hc : a.job_id = u.job_id
      · have : (saveJob (a :: l) u) = u :: saveJob l u := by
          simp [saveJob, hc]
        rw [this, List.find?_cons_of_pos]
        simpa using hid
      · have hkeep : (saveJob (a :: l) u) = a :: saveJob l u := by
          simp [saveJob, hc]
        have hpa : (a.job_id == id) = false := by
          simp
          exact fun hai => hc (hai.trans hid.symm)
        rw [hkeep, List.find?_cons_of_neg _ (by simp [hpa])]
        rw [List.find?_cons_of_neg _ (by simp [hpa])] at h
        exact ih h

theorem getJob_after_save {s : Store} {id : Nat} {job : ExtractionJob}
    (hget : getJob s id = some job) (u : ExtractionJob) (hid : u.job_id = id)
    (records2 : List ExtractedRecord) (nextId2 clock2 : Nat) :
    getJob { jobs := saveJob s.jobs u, records := records2,
             nextId := nextId2, clock := clock2 } id = some u := by
  apply find?_saveJob _ _ _ hid
  simp [getJob] at hget
  simp [hget]

theorem extract_data_ok_valid {t : String} {seed : Nat} {l : List RawRecord}
    (h : extract_data t seed = Except.ok l) : validate_token t = true := by
  by_cases hv : validate_token t
  · exact hv
  · simp [extract_data, hv] at h

theorem extract_data_ok_length {t : String} {seed : Nat} {l : List RawRecord}
    (h : extract_data t seed = Except.ok l) :
    4 ≤ l.length ∧ l.length ≤ 24 := by
  have hv : validate_token t = true := extract_data_ok_valid h
  simp [extract_data, hv] at h
  have hlen : l.length = randint 5 25 seed - 1 := by
    rw [← h]
    simp [mockData]
  have hmod : seed % 21 < 21 := Nat.mod_lt _ (by omega)
  simp [randint] at hlen
  omega

theorem mem_map_toRecord {id : Nat} {data : List RawRecord} {r : ExtractedRecord}
    (h : r ∈ data.map (toRecord id)) : r.job_id = id := by
  simp only [List.mem_map] at h
  obtain ⟨d, _, hd⟩ := h
  rw [← hd]
  rfl

theorem JobInv_mono {s s2 : Store} {j : ExtractionJob}
    (h : JobInv s j)
    (hc : s.clock ≤ s2.clock) (hn : s.nextId ≤ s2.nextId)
    (hr : ∀ r ∈ s2.records, r ∈ s.records ∨ r.job_id ≠ j.job_id) :
    JobInv s2 j := by
  obtain ⟨h1, h2, h3, h4, h5, h6, h7, h8⟩ := h
  refine ⟨h1, h2, ?_, h4, h5, ?_, ?_, ?_⟩
  · intro hp
    obtain ⟨ha, hb, hcnt⟩ := h3 hp
    refine ⟨ha, hb, ?_⟩
    intro r hrmem
    rcases hr r hrmem with hold | hne
    · exact hcnt r hold
    · exact hne
  · intro t ht
    exact lt_of_lt_of_le (h6 t ht) hc
  · intro t ht
    exact lt_of_lt_of_le (h7 t ht) hc
  · exact lt_of_lt_of_le h8 hn

theorem storeInv_empty : StoreInv emptyStore := by
  constructor <;> simp [emptyStore]

theorem storeInv_start (s : Store) (t : String) (h : StoreInv s) :
    StoreInv (start_extraction s t).2 := by
  obtain ⟨hjobs, hrecs⟩ := h
  constructor
  · intro j hj
    simp only [start_extraction, List.mem_append, List.mem_singleton] at hj
    rcases hj with hold | rfl
    · exact JobInv_mono (hjobs j hold) (le_refl _) (Nat.le_succ _)
        (fun r hr => Or.inl hr)
    · refine ⟨rfl, fun _ => rfl, ?_, ?_, Or.inl rfl, ?_, ?_, Nat.lt_succ_self _⟩
      · intro _
        refine ⟨rfl, rfl, ?_⟩
        intro r hr
        exact Nat.ne_of_lt (hrecs r hr)
      · intro hbad
        rcases hbad with hbad | hbad
        · exact absurd hbad (show ("pending" : String) ≠ "completed" by decide)
        · exact absurd hbad (show ("pending" : String) ≠ "failed" by decide)
      · intro t ht
        exact absurd ht (by simp)
      · intro t ht
        exact absurd ht (by simp)
  · intro r hr
    exact Nat.lt_succ_of_lt (hrecs r hr)

theorem storeInv_cancel (s : Store) (id : Nat) (h : StoreInv s) :
    StoreInv (cancel_job s id).2 := by
  obtain ⟨hjobs, hrecs⟩ := h
  cases hget : getJob s id with
  | none => simpa [cancel_job, hget] using ⟨hjobs, hrecs⟩
  | some job =>
      obtain ⟨hj1, hj2, hj3, hj4, hj5, hj6, hj7, hj8⟩ := hjobs job (getJob_mem hget)
      by_cases hc : can_be_cancelled job
      · simp only [cancel_job, hget, hc, if_true]
        constructor
        · intro j hj
          simp only at hj
          rcases mem_saveJob hj with rfl | ⟨hold, _⟩
          · refine ⟨rfl, hj2, ?_, ?_, Or.inr rfl, ?_, ?_, hj8⟩
            · intro hbad
              exact absurd hbad (show ("cancelled" : String) ≠ "pending" by decide)
            · intro hbad
              rcases hbad with hbad | hbad
              · exact absurd hbad (show ("cancelled" : String) ≠ "completed" by decide)
              · exact absurd hbad (show ("cancelled" : String) ≠ "failed" by decide)
            · intro t ht
              show t < s.clock + 1
              exact Nat.lt_succ_of_lt (hj6 t ht)
            · intro t ht
              have : t = s.clock := by simpa using ht.symm
              show t < s.clock + 1
              omega
          · exact JobInv_mono (hjobs j hold) (Nat.le_succ _) (le_refl _)
              (fun r hr => Or.inl hr)
        · intro r hr
          exact hrecs r hr
      · simpa [cancel_job, hget, hc] using ⟨hjobs, hrecs⟩

theorem storeInv_process_found (s : Store) (job : ExtractionJob) (seed : Nat)
    (h : StoreInv s) (hmem : job ∈ s.jobs) :
    StoreInv (process_found s job seed) := by
  obtain ⟨hjobs, hrecs⟩ := h
  obtain ⟨hj1, hj2, hj3, hj4, hj5, hj6, hj7, hj8⟩ := hjobs job hmem
  cases hext : extract_data job.api_token seed with
  | error msg =>
      simp only [process_found, process_mark_in_progress, finishFailed, hext]
      constructor
      · intro j hj
        simp only at hj
        rcases mem_saveJob hj with rfl | ⟨hj', hne⟩
        · refine ⟨rfl, hj2, ?_, fun _ => rfl, Or.inr rfl, ?_, ?_, hj8⟩
          · intro hbad
            exact absurd hbad (show ("failed" : String) ≠ "pending" by decide)
          · intro t ht
            have : t = s.clock := by simpa using ht.symm
            show t < s.clock + 1 + 1
            omega
          · intro t ht
            have : t = s.clock + 1 := by simpa using ht.symm
            show t < s.clock + 1 + 1
            omega
        · rcases mem_saveJob hj' with rfl | ⟨hold, _⟩
          · exact absurd rfl hne
          · exact JobInv_mono (hjobs j hold)
              (show s.clock ≤ s.clock + 1 + 1 by omega) (le_refl _)
              (fun r hr => Or.inl hr)
      · intro r hr
        exact hrecs r hr
  | ok data =>
      cases hbf : bulkCreateFails (data.map (toRecord job.job_id))
          (process_mark_in_progress s job).2.records with
      | true =>
          simp only [process_found, hext, hbf, if_true]
          simp only [process_mark_in_progress, finishFailed]
          constructor
          · intro j hj
            simp only at hj
            rcases mem_saveJob hj with rfl | ⟨hj', hne⟩
            · refine ⟨rfl, hj2, ?_, fun _ => rfl, Or.inr rfl, ?_, ?_, hj8⟩
              · intro hbad
                exact absurd hbad (show ("failed" : String) ≠ "pending" by decide)
              · intro t ht
                have : t = s.clock := by simpa using ht.symm
                show t < s.clock + 1 + 1
                omega
              · intro t ht
                have : t = s.clock + 1 := by simpa using ht.symm
                show t < s.clock + 1 + 1
                omega
            · rcases mem_saveJob hj' with rfl | ⟨hold, _⟩
              · exact absurd rfl hne
              · exact JobInv_mono (hjobs j hold)
                  (show s.clock ≤ s.clock + 1 + 1 by omega) (le_refl _)
                  (fun r hr => Or.inl hr)
          · intro r hr
            exact hrecs r hr
      | false =>
          have hvalid : validate_token job.api_token = true := extract_data_ok_valid hext
          simp only [process_found, hext, hbf, if_false]
          simp only [process_mark_in_progress, finishCompleted]
          constructor
          · intro j hj
            rcases mem_saveJob hj with rfl | ⟨hj', hne⟩
            · refine ⟨rfl, ?_, ?_, fun _ => rfl, Or.inr rfl, ?_, ?_, hj8⟩
              · intro hbad
                rw [hvalid] at hbad
                exact absurd hbad (by decide)
              · intro hbad
                exact absurd hbad (show ("completed" : String) ≠ "pending" by decide)
              · intro t ht
                have : t = s.clock := by simpa using ht.symm
                show t < s.clock + 1 + 1
                omega
              · intro t ht
                have : t = s.clock + 1 := by simpa using ht.symm
                show t < s.clock + 1 + 1
                omega
            · rcases mem_saveJob hj' with rfl | ⟨hold, _⟩
              · exact absurd rfl hne
              · refine JobInv_mono (hjobs j hold)
                  (show s.clock ≤ s.clock + 1 + 1 by omega) (le_refl _) ?_
                intro r hr
                rcases List.mem_append.mp hr with hrold | hrnew
                · exact Or.inl hrold
                · right
                  rw [mem_map_toRecord hrnew]
                  intro hbad
                  exact hne hbad.symm
          · intro r hr
            rcases List.mem_append.mp hr with hrold | hrnew
            · exact hrecs r hrold
            · rw [mem_map_toRecord hrnew]
              exact hj8

theorem storeInv_applyOp (s : Store) (op : Op) (h : StoreInv s) :
    StoreInv (applyOp s op) := by
  cases op with
  | start t => exact storeInv_start s t h
  | process id seed =>
      simp only [applyOp]
      cases hget : getJob s id with
      | none => simpa [process_extraction, hget] using h
      | some job =>
          simp only [process_extraction, hget]
          exact storeInv_process_found s job seed h (getJob_mem hget)
  | cancel id => exact storeInv_cancel s id h

theorem reachable_inv {s : Store} (h : Reachable s) : StoreInv s := by
  obtain ⟨ops, rfl⟩ := h
  show StoreInv (ops.foldl applyOp emptyStore)
  suffices h2 : ∀ (l : List Op) (s0 : Store), StoreInv s0 → StoreInv (l.foldl applyOp s0) by
    exact h2 ops emptyStore storeInv_empty
  intro l
  induction l with
  | nil => exact fun s0 h0 => h0
  | cons op rest ih => exact fun s0 h0 => ih _ (storeInv_applyOp s0 op h0)

theorem find?_isSome_of_getJob {s : Store} {id : Nat} {job : ExtractionJob}
    (hget : getJob s id = some job) :
    (s.jobs.find? (fun j => j.job_id == id)).isSome = true := by
  simp only [getJob] at hget
  simp [hget]

theorem getJob_processed {s : Store} {id : Nat} {job : ExtractionJob}
    (hget : getJob s id = some job) (u v : ExtractionJob)
    (hu : u.job_id = id) (hv : v.job_id = id)
    (records2 : List ExtractedRecord) (n2 c2 : Nat) :
    getJob { jobs := saveJob (saveJob s.jobs u) v, records := records2,
             nextId := n2, clock := c2 } id = some v := by
  show (saveJob (saveJob s.jobs u) v).find? (fun j => j.job_id == id) = some v
  apply find?_saveJob _ _ _ hv
  rw [find?_saveJob _ _ _ hu (find?_isSome_of_getJob hget)]
  rfl

theorem process_found_err (s : Store) (job : ExtractionJob) (seed : Nat) (msg : String)
    (hext : extract_data job.api_token seed = Except.error msg) :
    process_found s job seed =
      { jobs := saveJob
          (saveJob s.jobs { job with status := "in_progress", start_time := some s.clock })
          { job with status := "failed", error_message := msg,
                     start_time := some s.clock, end_time := some (s.clock + 1) },
        records := s.records, nextId := s.nextId, clock := s.clock + 2 } := by
  simp only [process_found, hext]
  rfl

theorem process_found_conflict (s : Store) (job : ExtractionJob) (seed : Nat)
    (data : List RawRecord)
    (hext : extract_data job.api_token seed = Except.ok data)
    (hbf : bulkCreateFails (data.map (toRecord job.job_id)) s.records = true) :
    process_found s job seed =
      { jobs := saveJob
          (saveJob s.jobs { job with status := "in_progress", start_time := some s.clock })
          { job with status := "failed",
                     error_message := "Unexpected error: " ++ integrityErrorMessage,
                     start_time := some s.clock, end_time := some (s.clock + 1) },
        records := s.records, nextId := s.nextId, clock := s.clock + 2 } := by
  simp only [process_found, hext]
  rw [show bulkCreateFails (data.map (toRecord job.job_id))
      (process_mark_in_progress s job).2.records = true from hbf]
  rfl

theorem process_found_ok (s : Store) (job : ExtractionJob) (seed : Nat)
    (data : List RawRecord)
    (hext : extract_data job.api_token seed = Except.ok data)
    (hbf : bulkCreateFails (data.map (toRecord job.job_id)) s.records = false) :
    process_found s job seed =
      { jobs := saveJob
          (saveJob s.jobs { job with status := "in_progress", start_time := some s.clock })
          { job with status := "completed", start_time := some s.clock,
                     end_time := some (s.clock + 1),
                     record_count := ((data.map (toRecord job.job_id)).length : Int) },
        records := s.records ++ data.map (toRecord job.job_id),
        nextId := s.nextId, clock := s.clock + 2 } := by
  simp only [process_found, hext]
  rw [show bulkCreateFails (data.map (toRecord job.job_id))
      (process_mark_in_progress s job).2.records = false from hbf]
  rfl

theorem any_key_map (id2 : Nat) (d : RawRecord) (l : List RawRecord) :
    ((l.map (toRecord id2)).any fun e =>
        e.job_id == (toRecord id2 d).job_id
          && e.id_from_service == (toRecord id2 d).id_from_service)
      = ((l.map RawRecord.id_from_service).any fun y => y == d.id_from_service) := by
  induction l with
  | nil => rfl
  | cons a t ih =>
      simp only [List.map_cons, List.any_cons, ih]
      simp [toRecord]

theorem dupWithin_toRecord (id2 : Nat) (l : List RawRecord) :
    dupWithin (l.map (toRecord id2)) = dupIds (l.map RawRecord.id_from_service) := by
  induction l with
  | nil => rfl
  | cons d rest ih =>
      simp only [List.map_cons, dupWithin, dupIds, ih, any_key_map]

theorem dupIds_mockIds :
    ∀ n < 25, dupIds ((List.range' 1 n).map (fun i => "user_" ++ toString i)) = false := by
  decide

theorem mockData_ids (seed : Nat) :
    (mockData seed).map RawRecord.id_from_service
      = (List.range' 1 (randint 5 25 seed - 1)).map (fun i => "user_" ++ toString i) := by
  rw [mockData, List.map_map]
  apply List.map_congr_left
  intro i _
  rfl

theorem mockData_length (seed : Nat) :
    (mockData seed).length = randint 5 25 seed - 1 := by
  simp [mockData]

theorem extract_data_valid (t : String) (seed : Nat) (hv : validate_token t = true) :
    extract_data t seed = Except.ok (mockData seed) := by
  simp [extract_data, hv]

theorem randint_sub_bounds (seed : Nat) :
    4 ≤ randint 5 25 seed - 1 ∧ randint 5 25 seed - 1 ≤ 24 := by
  have : seed % 21 < 21 := Nat.mod_lt _ (by omega)
  simp only [randint]
  omega

theorem process_fresh_spec (s : Store) (id seed : Nat) (job : ExtractionJob)
    (hget : getJob s id = some job)
    (htok : validate_token job.api_token = true)
    (hnorec : ∀ r ∈ s.records, r.job_id ≠ id) :
    ∃ s2 job2, process_extraction s id seed = Except.ok s2
      ∧ getJob s2 id = some job2
      ∧ job2.status = "completed"
      ∧ job2.record_count = ((recordsFor s2 id).length : Int)
      ∧ 4 ≤ job2.record_count ∧ job2.record_count ≤ 24
      ∧ job2.start_time = some s.clock
      ∧ job2.end_time = some (s.clock + 1) := by
  have hid := getJob_id hget
  have hext := extract_data_valid job.api_token seed htok
  have hb := randint_sub_bounds seed
  have hjobids : ∀ r ∈ (mockData seed).map (toRecord job.job_id), r.job_id = id :=
    fun r hr => (mem_map_toRecord hr).trans hid
  have hcross : (((mockData seed).map (toRecord job.job_id)).any fun r =>
      s.records.any fun e =>
        e.job_id == r.job_id && e.id_from_service == r.id_from_service) = false := by
    rw [List.any_eq_false]
    intro r hr hcon
    rw [List.any_eq_true] at hcon
    obtain ⟨e, he, hcond⟩ := hcon
    rw [Bool.and_eq_true, beq_iff_eq, beq_iff_eq] at hcond
    exact hnorec e he (hcond.1.trans (hjobids r hr))
  have hdup : dupWithin ((mockData seed).map (toRecord job.job_id)) = false := by
    rw [dupWithin_toRecord, mockData_ids]
    exact dupIds_mockIds _ (by omega)
  have hbf : bulkCreateFails ((mockData seed).map (toRecord job.job_id)) s.records = false := by
    simp [bulkCreateFails, hcross, hdup]
  have hpf := process_found_ok s job seed (mockData seed) hext hbf
  have hfilter : (s.records ++ (mockData seed).map (toRecord job.job_id)).filter
      (fun r => r.job_id == id) = (mockData seed).map (toRecord job.job_id) := by
    rw [List.filter_append]
    have h1 : s.records.filter (fun r => r.job_id == id) = [] := by
      rw [List.filter_eq_nil_iff]
      intro r hr
      simp only [beq_iff_eq]
      exact hnorec r hr
    have h2 : ((mockData seed).map (toRecord job.job_id)).filter
        (fun r => r.job_id == id) = (mockData seed).map (toRecord job.job_id) := by
      rw [List.filter_eq_self]
      intro r hr
      simp only [beq_iff_eq]
      exact hjobids r hr
    rw [h1, h2, List.nil_append]
  refine ⟨process_found s job seed,
    { job with status := "completed", start_time := some s.clock,
               end_time := some (s.clock + 1),
               record_count := ((((mockData seed).map (toRecord job.job_id)).length : Nat) : Int) },
    by simp [process_extraction, hget], ?_, rfl, ?_, ?_, ?_, rfl, rfl⟩
  · rw [hpf]
    exact getJob_processed hget
      { job with status := "in_progress", start_time := some s.clock }
      { job with status := "completed", start_time := some s.clock,
                 end_time := some (s.clock + 1),
                 record_count := ((((mockData seed).map (toRecord job.job_id)).length : Nat) : Int) }
      hid hid _ _ _
  · show ((((mockData seed).map (toRecord job.job_id)).length : Nat) : Int)
      = ((recordsFor (process_found s job seed) id).length : Int)
    rw [hpf]
    show _ = (((s.records ++ (mockData seed).map (toRecord job.job_id)).filter
      (fun r => r.job_id == id)).length : Int)
    rw [hfilter]
  · show (4 : Int) ≤ ((((mockData seed).map (toRecord job.job_id)).length : Nat) : Int)
    rw [List.length_map, mockData_length]
    exact_mod_cast hb.1
  · show ((((mockData seed).map (toRecord job.job_id)).length : Nat) : Int) ≤ 24
    rw [List.length_map, mockData_length]
    exact_mod_cast hb.2

theorem count_filter_statuses (l : List ExtractionJob)
    (h : ∀ j ∈ l, j.status = "pending" ∨ j.status = "in_progress" ∨ j.status = "completed"
        ∨ j.status = "failed" ∨ j.status = "cancelled") :
    (l.filter (fun j => j.status == "pending")).length
      + (l.filter (fun j => j.status == "in_progress")).length
      + (l.filter (fun j => j.status == "completed")).length
      + (l.filter (fun j => j.status == "failed")).length
      + (l.filter (fun j => j.status == "cancelled")).length = l.length := by
  induction l with
  | nil => rfl
  | cons a tl ih =>
      have ha := h a (List.mem_cons_self a tl)
      have htl : ∀ j ∈ tl, j.status = "pending" ∨ j.status = "in_progress"
          ∨ j.status = "completed" ∨ j.status = "failed" ∨ j.status = "cancelled" :=
        fun j hj => h j (List.mem_cons_of_mem a hj)
      have hsum := ih htl
      rcases ha with h1 | h1 | h1 | h1 | h1 <;>
        simp [List.filter_cons, h1] <;> omega

theorem foldl_record_count (l : List ExtractionJob) (a : Int) :
    l.foldl (fun acc j => acc + j.record_count) a
      = a + (l.map ExtractionJob.record_count).sum := by
  induction l generalizing a with
  | nil => simp
  | cons x tl ih =>
      rw [List.foldl_cons, List.map_cons, List.sum_cons, ih]
      ring

/-- C6: validate_token returns true exactly for tokens that are
non-empty, of length strictly greater than 10, and not starting with
the literal prefix "invalid". -/
theorem C6_validate_token_iff (t : String) :
    validate_token t = true
      ↔ (t ≠ "" ∧ t.length > 10 ∧ strStartsWith t "invalid" = false) := by
  simp only [validate_token, Bool.and_eq_true, Bool.not_eq_true', beq_eq_false_iff_ne,
    decide_eq_true_eq, ne_eq, and_assoc]

/-- C3: when no job with the given id exists, _process_extraction does
fail without creating or modifying any job, but the escaping exception
is the UnboundLocalError raised by the generic except handler reading
the never-bound local `job`, not the DoesNotExist (NotFound) error; the
manual wrapper reports failure with the store untouched. -/
theorem C3_missing_job_raises_name_error (s : Store) (id seed : Nat)
    (h : getJob s id = none) :
    process_extraction s id seed = Except.error PyExn.nameError
    ∧ process_extraction s id seed ≠ Except.error PyExn.doesNotExist
    ∧ process_extraction_manually s id seed = (false, s) := by
  refine ⟨?_, ?_, ?_⟩ <;> simp [process_extraction, process_extraction_manually, h]

theorem C3_missing_job_raises_name_error_witness :
    process_extraction emptyStore 0 0 = Except.error PyExn.nameError
    ∧ process_extraction emptyStore 0 0 ≠ Except.error PyExn.doesNotExist
    ∧ process_extraction_manually emptyStore 0 0 = (false, emptyStore) :=
  C3_missing_job_raises_name_error emptyStore 0 0 rfl

/-- C7: cancel_job returns false when the job is missing; returns false
and leaves the store unchanged when the job is not cancellable (in
particular for a completed job); and for a cancellable job sets status
to cancelled, sets end_time to now, and returns true. -/
theorem C7_cancel_job_spec (s : Store) (id : Nat) :
    (getJob s id = none → cancel_job s id = (false, s))
    ∧ (∀ job, getJob s id = some job → can_be_cancelled job = false →
        cancel_job s id = (false, s))
    ∧ (∀ job, getJob s id = some job → job.status = "completed" →
        cancel_job s id = (false, s))
    ∧ (∀ job, getJob s id = some job → can_be_cancelled job = true →
        (cancel_job s id).1 = true
        ∧ getJob (cancel_job s id).2 id
            = some { job with status := "cancelled", end_time := some s.clock }) := by
  refine ⟨?_, ?_, ?_, ?_⟩
  · intro h
    simp [cancel_job, h]
  · intro job hget hc
    simp [cancel_job, hget, hc]
  · intro job hget hstat
    have hc : can_be_cancelled job = false := by
      simp [can_be_cancelled, hstat]
    simp [cancel_job, hget, hc]
  · intro job hget hc
    constructor
    · simp [cancel_job, hget, hc]
    · simp only [cancel_job, hget, hc, if_true]
      show (saveJob s.jobs _).find? (fun j => j.job_id == id)
        = some { job with status := "cancelled", end_time := some s.clock }
      have hid : job.job_id = id := getJob_id hget
      exact find?_saveJob s.jobs
        { job with status := "cancelled", end_time := some s.clock } id
        hid (find?_isSome_of_getJob hget)

theorem C7_cancel_job_spec_witness :
    cancel_job emptyStore 0 = (false, emptyStore)
    ∧ cancel_job (runOps [Op.start "valid_test_token_12345", Op.process 0 0]) 0
        = (false, runOps [Op.start "valid_test_token_12345", Op.process 0 0])
    ∧ (cancel_job (runOps [Op.start "tok"]) 0).1 = true := by
  refine ⟨(C7_cancel_job_spec emptyStore 0).1 rfl, ?_, ?_⟩
  · exact (C7_cancel_job_spec (runOps [Op.start "valid_test_token_12345", Op.process 0 0]) 0).2.2.1
      { job_id := 0, status := "completed", api_token := "valid_test_token_12345",
        error_message := "", record_count := 4, start_time := some 0, end_time := some 1 }
      (by decide) rfl
  · exact ((C7_cancel_job_spec (runOps [Op.start "tok"]) 0).2.2.2
      { job_id := 0, status := "pending", api_token := "tok",
        error_message := "", record_count := 0, start_time := none, end_time := none }
      (by decide) rfl).1

/-- C2 counterexample: cancelling a job straight from pending produces a
reachable store whose only job is in the terminal status cancelled (it
has left pending and carries an end_time) yet has start_time unset, so
the claimed invariant that start_time is set once the job leaves
pending is false. -/
theorem C2_cancelled_pending_job_lacks_start_time :
    ((runOps [Op.start "tok", Op.cancel 0]).jobs.map
        (fun j => (j.status, j.start_time, j.end_time)))
      = [("cancelled", none, some 0)]
    ∧ isTerminalStatus "cancelled" = true := by
  decide

/-- C2 amended: in every reachable store, end_time is set exactly when
the status is terminal, and start_time is set for every job that was
processed (status completed or failed); a job cancelled directly from
pending can have start_time unset. -/
theorem C2_end_time_iff_terminal (s : Store) (h : Reachable s)
    (j : ExtractionJob) (hj : j ∈ s.jobs) :
    (j.end_time.isSome = true ↔ isTerminalStatus j.status = true)
    ∧ ((j.status = "completed" ∨ j.status = "failed") → j.start_time.isSome = true) := by
  obtain ⟨hjobs, _⟩ := reachable_inv h
  obtain ⟨h1, _, _, h4, _, _, _, _⟩ := hjobs j hj
  exact ⟨by rw [h1], h4⟩

theorem C2_end_time_iff_terminal_witness :
    ((some 1 : Option Nat).isSome = true ↔ isTerminalStatus "completed" = true)
    ∧ ((("completed" : String) = "completed" ∨ ("completed" : String) = "failed") →
        (some 0 : Option Nat).isSome = true) :=
  C2_end_time_iff_terminal (runOps [Op.start "valid_test_token_12345", Op.process 0 0])
    ⟨[Op.start "valid_test_token_12345", Op.process 0 0], rfl⟩
    { job_id := 0, status := "completed", api_token := "valid_test_token_12345",
      error_message := "", record_count := 4, start_time := some 0, end_time := some 1 }
    (by decide)

/-- C4: processing a job whose stored token fails validation leaves the
job failed with the token-specific message "Invalid API token"
(non-empty), end_time set to now, and record_count 0. -/
theorem C4_invalid_token_job_fails (s : Store) (id seed : Nat) (job : ExtractionJob)
    (hreach : Reachable s) (hget : getJob s id = some job)
    (htok : validate_token job.api_token = false) :
    ∃ s2 job2, process_extraction s id seed = Except.ok s2
      ∧ getJob s2 id = some job2
      ∧ job2.status = "failed"
      ∧ job2.error_message = "Invalid API token"
      ∧ job2.error_message ≠ ""
      ∧ job2.end_time = some (s.clock + 1)
      ∧ job2.record_count = 0 := by
  obtain ⟨hjobs, _⟩ := reachable_inv hreach
  have hrc : job.record_count = 0 := (hjobs job (getJob_mem hget)).2.1 htok
  have hid : job.job_id = id := getJob_id hget
  have hext : extract_data job.api_token seed = Except.error "Invalid API token" := by
    simp [extract_data, htok]
  have hpf := process_found_err s job seed _ hext
  refine ⟨process_found s job seed,
    { job with status := "failed", error_message := "Invalid API token",
               start_time := some s.clock, end_time := some (s.clock + 1) },
    by simp [process_extraction, hget], ?_, rfl, rfl,
    (show ("Invalid API token" : String) ≠ "" by decide), rfl, hrc⟩
  rw [hpf]
  exact getJob_processed hget
    { job with status := "in_progress", start_time := some s.clock }
    { job with status := "failed", error_message := "Invalid API token",
               start_time := some s.clock, end_time := some (s.clock + 1) }
    hid hid _ _ _

theorem C4_invalid_token_job_fails_witness :
    ∃ s2 job2, process_extraction (runOps [Op.start "short"]) 0 0 = Except.ok s2
      ∧ getJob s2 0 = some job2
      ∧ job2.status = "failed"
      ∧ job2.error_message = "Invalid API token"
      ∧ job2.error_message ≠ ""
      ∧ job2.end_time = some ((runOps [Op.start "short"]).clock + 1)
      ∧ job2.record_count = 0 :=
  C4_invalid_token_job_fails (runOps [Op.start "short"]) 0 0
    { job_id := 0, status := "pending", api_token := "short", error_message := "",
      record_count := 0, start_time := none, end_time := none }
    ⟨[Op.start "short"], rfl⟩ (by decide) (by decide)

/-- C10: when every stored status is one of the five declared choices,
the five per-status counts of get_job_statistics sum to total_jobs. -/
theorem C10_status_counts_sum (s : Store)
    (h : ∀ j ∈ s.jobs, j.status = "pending" ∨ j.status = "in_progress"
        ∨ j.status = "completed" ∨ j.status = "failed" ∨ j.status = "cancelled") :
    (get_job_statistics s).pending_jobs + (get_job_statistics s).in_progress_jobs
      + (get_job_statistics s).completed_jobs + (get_job_statistics s).failed_jobs
      + (get_job_statistics s).cancelled_jobs
      = (get_job_statistics s).total_jobs := by
  simp only [get_job_statistics]
  exact count_filter_statuses s.jobs h

theorem C10_status_counts_sum_witness :
    (get_job_statistics (runOps [Op.start "valid_test_token_12345", Op.process 0 0,
        Op.start "tok", Op.start "short", Op.process 2 0, Op.cancel 1])).pending_jobs
      + (get_job_statistics (runOps [Op.start "valid_test_token_12345", Op.process 0 0,
        Op.start "tok", Op.start "short", Op.process 2 0, Op.cancel 1])).in_progress_jobs
      + (get_job_statistics (runOps [Op.start "valid_test_token_12345", Op.process 0 0,
        Op.start "tok", Op.start "short", Op.process 2 0, Op.cancel 1])).completed_jobs
      + (get_job_statistics (runOps [Op.start "valid_test_token_12345", Op.process 0 0,
        Op.start "tok", Op.start "short", Op.process 2 0, Op.cancel 1])).failed_jobs
      + (get_job_statistics (runOps [Op.start "valid_test_token_12345", Op.process 0 0,
        Op.start "tok", Op.start "short", Op.process 2 0, Op.cancel 1])).cancelled_jobs
      = (get_job_statistics (runOps [Op.start "valid_test_token_12345", Op.process 0 0,
        Op.start "tok", Op.start "short", Op.process 2 0, Op.cancel 1])).total_jobs :=
  C10_status_counts_sum (runOps [Op.start "valid_test_token_12345", Op.process 0 0,
    Op.start "tok", Op.start "short", Op.process 2 0, Op.cancel 1]) (by decide)

/-- C8: the average duration is computed only over jobs that are
completed with both timestamps set (and is 0 when no such job exists,
and unchanged by jobs outside that set); total_records_extracted sums
record_count over all jobs; on the empty store every field is zero. -/
theorem C8_statistics_spec (s : Store) (j0 : ExtractionJob) :
    ((∀ j ∈ s.jobs, ¬(j.status = "completed" ∧ j.start_time.isSome = true
        ∧ j.end_time.isSome = true)) →
      (get_job_statistics s).average_duration_seconds = 0)
    ∧ (get_job_statistics s).total_records_extracted
        = (s.jobs.map ExtractionJob.record_count).sum
    ∧ get_job_statistics emptyStore =
        { total_jobs := 0, completed_jobs := 0, failed_jobs := 0, pending_jobs := 0,
          in_progress_jobs := 0, cancelled_jobs := 0, average_duration_seconds := 0,
          total_records_extracted := 0 }
    ∧ (¬(j0.status = "completed" ∧ j0.start_time.isSome = true ∧ j0.end_time.isSome = true) →
        (get_job_statistics { s with jobs := j0 :: s.jobs }).average_duration_seconds
          = (get_job_statistics s).average_duration_seconds) := by
  refine ⟨?_, ?_, rfl, ?_⟩
  · intro h
    simp only [get_job_statistics]
    have hfil : s.jobs.filter (fun j => j.status == "completed" && j.start_time.isSome
        && j.end_time.isSome) = [] := by
      rw [List.filter_eq_nil_iff]
      intro j hj hcon
      rw [Bool.and_eq_true, Bool.and_eq_true, beq_iff_eq] at hcon
      exact h j hj ⟨hcon.1.1, hcon.1.2, hcon.2⟩
    rw [hfil]
    simp
  · simp only [get_job_statistics]
    rw [foldl_record_count, zero_add]
  · intro h
    have hcond : (j0.status == "completed" && j0.start_time.isSome
        && j0.end_time.isSome) = false := by
      cases hb : (j0.status == "completed" && j0.start_time.isSome && j0.end_time.isSome)
      · rfl
      · rw [Bool.and_eq_true, Bool.and_eq_true, beq_iff_eq] at hb
        exact absurd ⟨hb.1.1, hb.1.2, hb.2⟩ h
    simp only [get_job_statistics]
    rw [List.filter_cons_of_neg]
    simp [hcond]

theorem C8_statistics_spec_witness :
    (get_job_statistics (runOps [Op.start "tok"])).average_duration_seconds = 0
    ∧ (get_job_statistics { runOps [Op.start "tok"] with
        jobs := { job_id := 5, status := "pending", api_token := "x", error_message := "",
                  record_count := 0, start_time := none, end_time := none }
          :: (runOps [Op.start "tok"]).jobs }).average_duration_seconds
      = (get_job_statistics (runOps [Op.start "tok"])).average_duration_seconds := by
  have h := C8_statistics_spec (runOps [Op.start "tok"])
    { job_id := 5, status := "pending", api_token := "x", error_message := "",
      record_count := 0, start_time := none, end_time := none }
  exact ⟨h.1 (by decide), h.2.2.2 (by decide)⟩

/-- C1 counterexample: a job that already completed still has its valid
token stored, but re-running process_extraction on it collides with the
previously persisted records on the per-job unique key id_from_service,
so bulk_create raises IntegrityError and the run ends with the job
failed, not completed. -/
theorem C1_reprocess_completed_job_fails :
    ((runOps [Op.start "valid_test_token_12345", Op.process 0 0]).jobs.map
        (fun j => validate_token j.api_token)) = [true]
    ∧ process_extraction_manually
        (runOps [Op.start "valid_test_token_12345", Op.process 0 0]) 0 1
      = (true, runOps [Op.start "valid_test_token_12345", Op.process 0 0, Op.process 0 1])
    ∧ ((runOps [Op.start "valid_test_token_12345", Op.process 0 0, Op.process 0 1]).jobs.map
        ExtractionJob.status) = ["failed"] := by
  decide

/-- C1 amended: for a job with no records already persisted for it (as
holds for every job that has never completed), processing with a token
satisfying validate_token ends with the job completed, record_count
equal to the number of records persisted for the job, end_time set, and
start_time set with start_time at most end_time. -/
theorem C1_process_valid_token_completes (s : Store) (id seed : Nat)
    (job : ExtractionJob)
    (hget : getJob s id = some job)
    (htok : validate_token job.api_token = true)
    (hnorec : ∀ r ∈ s.records, r.job_id ≠ id) :
    ∃ s2 job2, process_extraction s id seed = Except.ok s2
      ∧ getJob s2 id = some job2
      ∧ job2.status = "completed"
      ∧ job2.record_count = ((recordsFor s2 id).length : Int)
      ∧ ∃ t1 t2, job2.start_time = some t1 ∧ job2.end_time = some t2 ∧ t1 ≤ t2 := by
  obtain ⟨s2, job2, h1, h2, h3, h4, _, _, h7, h8⟩ :=
    process_fresh_spec s id seed job hget htok hnorec
  exact ⟨s2, job2, h1, h2, h3, h4, s.clock, s.clock + 1, h7, h8, Nat.le_succ _⟩

theorem C1_process_valid_token_completes_witness :
    ∃ s2 job2, process_extraction (runOps [Op.start "valid_test_token_12345"]) 0 7
        = Except.ok s2
      ∧ getJob s2 0 = some job2
      ∧ job2.status = "completed"
      ∧ job2.record_count = ((recordsFor s2 0).length : Int)
      ∧ ∃ t1 t2, job2.start_time = some t1 ∧ job2.end_time = some t2 ∧ t1 ≤ t2 :=
  C1_process_valid_token_completes (runOps [Op.start "valid_test_token_12345"]) 0 7
    { job_id := 0, status := "pending", api_token := "valid_test_token_12345",
      error_message := "", record_count := 0, start_time := none, end_time := none }
    (by decide) (by decide) (by decide)

/-- C5: extract_data with a valid token always returns between 4 and 24
records inclusive, and a pending job with a valid token is processed to
completed with record_count between 4 and 24 inclusive. -/
theorem C5_extract_count_bounds (t : String) (seed : Nat) (s : Store)
    (id seed2 : Nat) (job : ExtractionJob)
    (hv : validate_token t = true)
    (hreach : Reachable s) (hget : getJob s id = some job)
    (hpending : job.status = "pending")
    (htok : validate_token job.api_token = true) :
    (∃ l, extract_data t seed = Except.ok l ∧ 4 ≤ l.length ∧ l.length ≤ 24)
    ∧ (∃ s2 job2, process_extraction s id seed2 = Except.ok s2
        ∧ getJob s2 id = some job2 ∧ job2.status = "completed"
        ∧ 4 ≤ job2.record_count ∧ job2.record_count ≤ 24) := by
  constructor
  · refine ⟨mockData seed, extract_data_valid t seed hv, ?_, ?_⟩
    · rw [mockData_length]
      exact (randint_sub_bounds seed).1
    · rw [mockData_length]
      exact (randint_sub_bounds seed).2
  · obtain ⟨hjobs, _⟩ := reachable_inv hreach
    have hnorec : ∀ r ∈ s.records, r.job_id ≠ id := by
      intro r hr
      have hne := ((hjobs job (getJob_mem hget)).2.2.1 hpending).2.2 r hr
      rw [getJob_id hget] at hne
      exact hne
    obtain ⟨s2, job2, h1, h2, h3, _, h5, h6, _, _⟩ :=
      process_fresh_spec s id seed2 job hget htok hnorec
    exact ⟨s2, job2, h1, h2, h3, h5, h6⟩

theorem C5_extract_count_bounds_witness :
    (∃ l, extract_data "valid_test_token_12345" 20 = Except.ok l
      ∧ 4 ≤ l.length ∧ l.length ≤ 24)
    ∧ (∃ s2 job2, process_extraction (runOps [Op.start "valid_test_token_12345"]) 0 3
        = Except.ok s2
      ∧ getJob s2 0 = some job2 ∧ job2.status = "completed"
      ∧ 4 ≤ job2.record_count ∧ job2.record_count ≤ 24) :=
  C5_extract_count_bounds "valid_test_token_12345" 20
    (runOps [Op.start "valid_test_token_12345"]) 0 3
    { job_id := 0, status := "pending", api_token := "valid_test_token_12345",
      error_message := "", record_count := 0, start_time := none, end_time := none }
    (by decide) ⟨[Op.start "valid_test_token_12345"], rfl⟩ (by decide) rfl (by decide)

/-- C9: re-invoking process_extraction on a job already in a terminal
status re-runs the extraction: the job is first saved as in_progress
and then overwritten with a new terminal outcome, so it does not stay
untouched. -/
theorem C9_reprocess_terminal_overwrites (s : Store) (id seed : Nat)
    (job : ExtractionJob)
    (hreach : Reachable s) (hget : getJob s id = some job)
    (hterm : isTerminalStatus job.status = true) :
    (process_mark_in_progress s job).1.status = "in_progress"
    ∧ ∃ s2 job2, process_extraction s id seed = Except.ok s2
        ∧ getJob s2 id = some job2
        ∧ isTerminalStatus job2.status = true
        ∧ job2 ≠ job := by
  obtain ⟨hjobs, _⟩ := reachable_inv hreach
  obtain ⟨h1, _, _, _, _, _, h7, _⟩ := hjobs job (getJob_mem hget)
  rw [hterm] at h1
  obtain ⟨e, he⟩ := Option.isSome_iff_exists.mp h1
  have helt : e < s.clock := h7 e he
  have hid : job.job_id = id := getJob_id hget
  have hneq : ∀ job2 : ExtractionJob, job2.end_time = some (s.clock + 1) → job2 ≠ job := by
    intro job2 h2e hcontra
    rw [hcontra, he] at h2e
    have : e = s.clock + 1 := by
      exact Option.some.inj h2e
    omega
  refine ⟨rfl, ?_⟩
  cases hext : extract_data job.api_token seed with
  | error msg =>
      have hpf := process_found_err s job seed msg hext
      refine ⟨process_found s job seed,
        { job with status := "failed", error_message := msg,
                   start_time := some s.clock, end_time := some (s.clock + 1) },
        by simp [process_extraction, hget], ?_, rfl, hneq _ rfl⟩
      rw [hpf]
      exact getJob_processed hget
        { job with status := "in_progress", start_time := some s.clock }
        { job with status := "failed", error_message := msg,
                   start_time := some s.clock, end_time := some (s.clock + 1) }
        hid hid _ _ _
  | ok data =>
      cases hbf : bulkCreateFails (data.map (toRecord job.job_id)) s.records with
      | true =>
          have hpf := process_found_conflict s job seed data hext hbf
          refine ⟨process_found s job seed,
            { job with status := "failed",
                       error_message := "Unexpected error: " ++ integrityErrorMessage,
                       start_time := some s.clock, end_time := some (s.clock + 1) },
            by simp [process_extraction, hget], ?_, rfl, hneq _ rfl⟩
          rw [hpf]
          exact getJob_processed hget
            { job with status := "in_progress", start_time := some s.clock }
            { job with status := "failed",
                       error_message := "Unexpected error: " ++ integrityErrorMessage,
                       start_time := some s.clock, end_time := some (s.clock + 1) }
            hid hid _ _ _
      | false =>
          have hpf := process_found_ok s job seed data hext hbf
          refine ⟨process_found s job seed,
            { job with status := "completed", start_time := some s.clock,
                       end_time := some (s.clock + 1),
                       record_count := ((data.map (toRecord job.job_id)).length : Int) },
            by simp [process_extraction, hget], ?_, rfl, hneq _ rfl⟩
          rw [hpf]
          exact getJob_processed hget
            { job with status := "in_progress", start_time := some s.clock }
            { job with status := "completed", start_time := some s.clock,
                       end_time := some (s.clock + 1),
                       record_count := ((data.map (toRecord job.job_id)).length : Int) }
            hid hid _ _ _

theorem C9_reprocess_terminal_overwrites_witness :
    (process_mark_in_progress (runOps [Op.start "valid_test_token_12345", Op.process 0 0])
      { job_id := 0, status := "completed", api_token := "valid_test_token_12345",
        error_message := "", record_count := 4, start_time := some 0,
        end_time := some 1 }).1.status = "in_progress"
    ∧ ∃ s2 job2, process_extraction
        (runOps [Op.start "valid_test_token_12345", Op.process 0 0]) 0 1 = Except.ok s2
      ∧ getJob s2 0 = some job2
      ∧ isTerminalStatus job2.status = true
      ∧ job2 ≠ { job_id := 0, status := "completed", api_token := "valid_test_token_12345",
                 error_message := "", record_count := 4, start_time := some 0,
                 end_time := some 1 } :=
  C9_reprocess_terminal_overwrites
    (runOps [Op.start "valid_test_token_12345", Op.process 0 0]) 0 1
    { job_id := 0, status := "completed", api_token := "valid_test_token_12345",
      error_message := "", record_count := 4, start_time := some 0, end_time := some 1 }
    ⟨[Op.start "valid_test_token_12345", Op.process 0 0], rfl⟩ (by decide) rfl

end DataExtraction
